import Mathlib

/-!
Verification of the DN (Distinguished Name) parser of
`vendor/github.com/go-ldap/ldap/dn.go`.

The Go source is embedded shallowly: the input string is a list of
characters (all inputs of interest are ASCII, so Go's byte-level scan and
a character-level scan coincide), the mutable scan state of `ParseDN`
becomes an explicit `ScanState` record threaded through a fuel-indexed
recursive scanner `run`, and the three possible outcomes of the Go
function are `ParseResult.ok`, `ParseResult.error` and `ParseResult.crash`
(a Go runtime panic, which is not an error return).
-/

namespace LdapDN

/-- `AttributeTypeAndValue` from dn.go: the Go fields are `Type` and
`Value` (`Type` is a reserved word in Lean, hence the lower-case names). -/
structure AttributeTypeAndValue where
  type : String
  value : String
deriving Repr, DecidableEq

/-- `RelativeDN` from dn.go: an ordered list of attributes. -/
structure RelativeDN where
  Attributes : List AttributeTypeAndValue
deriving Repr, DecidableEq

/-- `DN` from dn.go: an ordered list of relative DNs. -/
structure DN where
  RDNs : List RelativeDN
deriving Repr, DecidableEq

/-- The error returns of `ParseDN`, one constructor per `return nil, err`
site in dn.go (the unreachable `Expected 1 byte when un-escaping` branch
is omitted: `enchex.Decode` of two hex characters into a one-byte buffer
always writes exactly one byte or fails). -/
inductive ParseErr where
  /-- `Got corrupted escaped character`: a non-special escaped character
  is the last character of the input. -/
  | corruptedEscape
  /-- `Failed to decode escaped character`: the two characters after the
  backslash are not two hex digits. -/
  | invalidEscapeHex
  /-- `Failed to decode BER encoding`: the hex span after `=#` does not
  hex-decode. -/
  | berHexFail
  /-- `DN ended with incomplete type, value pair`. -/
  | incompleteTypeValue
deriving Repr, DecidableEq

/-- The observable outcome of `ParseDN`: a DN, an error return, or a Go
runtime panic (`crash`), which is neither. -/
inductive ParseResult where
  | ok (dn : DN)
  | error (e : ParseErr)
  | crash
deriving Repr, DecidableEq

/-- The special characters of the `switch` in the escaping branch of
`ParseDN`: space, `"`, `#`, `+`, `,`, `;`, `<`, `=`, `>`, `\`. -/
def isSpecialChar (c : Char) : Bool :=
  c == ' ' || c == '"' || c == '#' || c == '+' || c == ',' ||
  c == ';' || c == '<' || c == '=' || c == '>' || c == '\\'

/-- Value of one hex digit, as in Go `encoding/hex.fromHexChar`:
`0-9`, `a-f`, `A-F`; anything else is a decode error. -/
def hexVal (c : Char) : Option Nat :=
  if '0' ≤ c ∧ c ≤ '9' then some (c.toNat - '0'.toNat)
  else if 'a' ≤ c ∧ c ≤ 'f' then some (c.toNat - 'a'.toNat + 10)
  else if 'A' ≤ c ∧ c ≤ 'F' then some (c.toNat - 'A'.toNat + 10)
  else none

/-- Go `encoding/hex.DecodeString`: decodes pairs of hex digits into
bytes; an odd-length input or a non-hex character is an error (`none`). -/
def hexDecodeList : List Char → Option (List Nat)
  | [] => some []
  | [_] => none
  | c1 :: c2 :: rest =>
    match hexVal c1, hexVal c2 with
    | some hi, some lo => (hexDecodeList rest).map (fun bs => (16 * hi + lo) :: bs)
    | _, _ => none

/-- Go `strings.IndexAny(s, ",+")` on the remaining input, as an
`Option Nat` (Go returns `-1` when absent). -/
def indexOfDelim (l : List Char) : Option Nat :=
  l.findIdx? (fun c => c == ',' || c == '+')

/-- The mutable locals of `ParseDN` that survive one loop iteration:
the completed RDNs (`dn.RDNs`), the attributes of the RDN under
construction (`rdn.Attributes`), the `Type` already assigned to the
attribute under construction, the accumulation `buffer`, the
`unescapedTrailingSpaces` counter and the `escaping` flag. -/
structure ScanState where
  dn : List RelativeDN
  rdn : List AttributeTypeAndValue
  attrType : String
  buffer : List Char
  unescapedTrailingSpaces : Nat
  escaping : Bool
deriving Repr, DecidableEq

/-- The initial state of the scan, as set up at the top of `ParseDN`. -/
def initState : ScanState :=
  { dn := [], rdn := [], attrType := "", buffer := [],
    unescapedTrailingSpaces := 0, escaping := false }

/-- The `stringFromBuffer` closure of dn.go: the buffer contents with the
last `unescapedTrailingSpaces` characters removed (the closure also resets
the buffer and the counter; those resets are performed at each call site
of this function). -/
def stringFromBuffer (buffer : List Char) (unescapedTrailingSpaces : Nat) : String :=
  String.mk (buffer.take (buffer.length - unescapedTrailingSpaces))

/-- The code after the scan loop of `ParseDN`: with a non-empty buffer, a
never-assigned `Type` is the incomplete-pair error, otherwise the pending
attribute and RDN are appended; with an empty buffer the DN is returned
as is (any pending RDN attributes are dropped). -/
def finalizeDN (st : ScanState) : ParseResult :=
  if st.buffer.length > 0 then
    if st.attrType.length = 0 then ParseResult.error ParseErr.incompleteTypeValue
    else
      ParseResult.ok (DN.mk (st.dn ++ [RelativeDN.mk (st.rdn ++
        [{ type := st.attrType,
           value := stringFromBuffer st.buffer st.unescapedTrailingSpaces }])]))
  else ParseResult.ok (DN.mk st.dn)

/-- The scan loop of `ParseDN`, one constructor branch per character-class
branch of the Go loop, with `decode` the external BER decoder (see
`ParseDN`).  `fuel` only bounds the recursion; `ParseDN` supplies more
fuel than the input length, so the `crash` at fuel 0 is unreachable from
`ParseDN`.  In the BER fast path, `decode` returning `none` models
`ber.DecodePacket` returning `nil`, upon which the Go code dereferences
`packet.Data` and panics (`crash`). -/
def run (decode : List Nat → Option String) :
    Nat → ScanState → List Char → ParseResult
  | _, st, [] => finalizeDN st
  | 0, _, _ :: _ => ParseResult.crash
  | fuel + 1, st, char :: rest =>
    if st.escaping then
      let st := { st with unescapedTrailingSpaces := 0, escaping := false }
      if isSpecialChar char then
        run decode fuel { st with buffer := st.buffer ++ [char] } rest
      else
        match rest with
        | [] => ParseResult.error ParseErr.corruptedEscape
        | c2 :: rest2 =>
          match hexVal char, hexVal c2 with
          | some hi, some lo =>
            run decode fuel
              { st with buffer := st.buffer ++ [Char.ofNat (16 * hi + lo)] } rest2
          | _, _ => ParseResult.error ParseErr.invalidEscapeHex
    else if char = '\\' then
      run decode fuel { st with unescapedTrailingSpaces := 0, escaping := true } rest
    else if char = '=' then
      let st := { st with attrType := stringFromBuffer st.buffer st.unescapedTrailingSpaces, buffer := [], unescapedTrailingSpaces := 0 }
      match rest with
      | '#' :: hexPart =>
        let data : List Char :=
          match indexOfDelim hexPart with
          | some n => if 0 < n then hexPart.take n else hexPart
          | none => hexPart
        match hexDecodeList data with
        | none => ParseResult.error ParseErr.berHexFail
        | some rawBER =>
          match decode rawBER with
          | none => ParseResult.crash
          | some rendered =>
            run decode fuel { st with buffer := rendered.data }
              (hexPart.drop data.length)
      | _ => run decode fuel st rest
    else if char = ',' ∨ char = '+' then
      let attr : AttributeTypeAndValue :=
        { type := st.attrType,
          value := stringFromBuffer st.buffer st.unescapedTrailingSpaces }
      let rdn := st.rdn ++ [attr]
      let st := { st with attrType := "", buffer := [], unescapedTrailingSpaces := 0 }
      if char = ',' then
        run decode fuel { st with dn := st.dn ++ [RelativeDN.mk rdn], rdn := [] } rest
      else
        run decode fuel { st with rdn := rdn } rest
    else if char = ' ' ∧ st.buffer = [] then
      run decode fuel st rest
    else if char = ' ' then
      run decode fuel { st with buffer := st.buffer ++ [char], unescapedTrailingSpaces := st.unescapedTrailingSpaces + 1 } rest
    else
      run decode fuel { st with buffer := st.buffer ++ [char], unescapedTrailingSpaces := 0 } rest

/-- `ParseDN` of dn.go.  `decode` is the external BER-decoding
collaborator, modelled from the spec: the source delegates the `=#` fast
path to `ber.DecodePacket` of `gopkg.in/asn1-ber.v1`, which is not part of
the sources under verification; per the spec it turns the decoded bytes
into a rendered value string, and it may reject its input (`none`), in
which case it returns a nil packet and the unconditional
`packet.Data.String()` in dn.go panics. -/
def ParseDN (decode : List Nat → Option String) (str : String) : ParseResult :=
  run decode (str.data.length + 1) initState str.data

/-- A concrete instance of the spec-modelled BER decoder used to
instantiate universally-quantified theorems on concrete inputs: it
rejects every byte sequence.  None of the instantiating inputs below
reaches the BER fast path except where a rejection is the very point. -/
def rejectAllBER : List Nat → Option String := fun _ => none

/-- C9: `ParseDN` on the empty input string succeeds and returns a DN
whose list of RelativeDNs is empty, for every BER decoder. -/
theorem emptyInput_ok (d : List Nat → Option String) :
    ParseDN d "" = ParseResult.ok (DN.mk []) := rfl

/-- Witness for C9: the empty input evaluated with a concrete decoder. -/
theorem emptyInput_ok_witness :
    ParseDN rejectAllBER "" = ParseResult.ok (DN.mk []) :=
  emptyInput_ok rejectAllBER

/-- C5: `ParseDN "CN=James,OU=Engineering,DC=example,DC=com"` succeeds
with exactly four RelativeDNs in input order, each holding exactly one
attribute, the first being `(CN, James)`. -/
theorem multiRDN_order (d : List Nat → Option String) :
    ParseDN d "CN=James,OU=Engineering,DC=example,DC=com" =
      ParseResult.ok (DN.mk
        [RelativeDN.mk [{ type := "CN", value := "James" }],
         RelativeDN.mk [{ type := "OU", value := "Engineering" }],
         RelativeDN.mk [{ type := "DC", value := "example" }],
         RelativeDN.mk [{ type := "DC", value := "com" }]]) := by
  set_option maxRecDepth 8000 in rfl

/-- Witness for C5 at a concrete decoder. -/
theorem multiRDN_order_witness :
    ParseDN rejectAllBER "CN=James,OU=Engineering,DC=example,DC=com" =
      ParseResult.ok (DN.mk
        [RelativeDN.mk [{ type := "CN", value := "James" }],
         RelativeDN.mk [{ type := "OU", value := "Engineering" }],
         RelativeDN.mk [{ type := "DC", value := "example" }],
         RelativeDN.mk [{ type := "DC", value := "com" }]]) :=
  multiRDN_order rejectAllBER

/-- C6: unescaped trailing spaces are stripped from a finalized value,
an escaped trailing space survives: `"CN=James   "` gives value
`"James"` and `"CN=James\ "` gives value `"James "`. -/
theorem trailingSpaces_strip (d : List Nat → Option String) :
    ParseDN d "CN=James   " =
      ParseResult.ok (DN.mk [RelativeDN.mk [{ type := "CN", value := "James" }]]) ∧
    ParseDN d "CN=James\\ " =
      ParseResult.ok (DN.mk [RelativeDN.mk [{ type := "CN", value := "James " }]]) := by
  exact ⟨by set_option maxRecDepth 4000 in rfl, by set_option maxRecDepth 4000 in rfl⟩

/-- Witness for C6 at a concrete decoder. -/
theorem trailingSpaces_strip_witness :
    ParseDN rejectAllBER "CN=James   " =
      ParseResult.ok (DN.mk [RelativeDN.mk [{ type := "CN", value := "James" }]]) ∧
    ParseDN rejectAllBER "CN=James\\ " =
      ParseResult.ok (DN.mk [RelativeDN.mk [{ type := "CN", value := "James " }]]) :=
  trailingSpaces_strip rejectAllBER

/-- C7: the escape `\2C` decodes to the raw comma byte, which is inert
for the grammar: `"CN=James\2C Jr."` yields one RelativeDN with the one
attribute `(CN, "James, Jr.")`, the comma kept literally. -/
theorem escapedComma_literal (d : List Nat → Option String) :
    ParseDN d "CN=James\\2C Jr." =
      ParseResult.ok (DN.mk [RelativeDN.mk [{ type := "CN", value := "James, Jr." }]]) := by
  set_option maxRecDepth 4000 in rfl

/-- Witness for C7 at a concrete decoder. -/
theorem escapedComma_literal_witness :
    ParseDN rejectAllBER "CN=James\\2C Jr." =
      ParseResult.ok (DN.mk [RelativeDN.mk [{ type := "CN", value := "James, Jr." }]]) :=
  escapedComma_literal rejectAllBER

/-- C8: `+` joins attributes into one multi-valued RDN without closing
it: `"OU=Sales+CN=J. Smith"` yields exactly one RelativeDN holding
`(OU, Sales)` then `(CN, "J. Smith")`, in that order. -/
theorem plusJoins_attributes (d : List Nat → Option String) :
    ParseDN d "OU=Sales+CN=J. Smith" =
      ParseResult.ok (DN.mk [RelativeDN.mk
        [{ type := "OU", value := "Sales" },
         { type := "CN", value := "J. Smith" }]]) := by
  set_option maxRecDepth 4000 in rfl

/-- Witness for C8 at a concrete decoder. -/
theorem plusJoins_attributes_witness :
    ParseDN rejectAllBER "OU=Sales+CN=J. Smith" =
      ParseResult.ok (DN.mk [RelativeDN.mk
        [{ type := "OU", value := "Sales" },
         { type := "CN", value := "J. Smith" }]]) :=
  plusJoins_attributes rejectAllBER

/-- The end-of-scan code never emits an attribute with an empty type:
with an empty `dn`/`rdn` accumulator, any successfully finalized DN has
only non-empty attribute types (helper for the delimiter-free invariant). -/
theorem finalize_no_delim (st : ScanState) (hdn : st.dn = []) (hrdn : st.rdn = [])
    (dnv : DN) (h : finalizeDN st = ParseResult.ok dnv) :
    ∀ r ∈ dnv.RDNs, ∀ a ∈ r.Attributes, a.type ≠ "" := by
  unfold finalizeDN at h
  split at h
  · split at h
    · exact absurd h (by simp)
    · rename_i hlen hty
      cases h
      intro r hr a ha
      simp only [hdn, hrdn, List.nil_append, List.mem_singleton] at hr
      subst hr
      simp only [List.mem_singleton] at ha
      subst ha
      intro hcontra
      apply hty
      have hat : st.attrType = "" := hcontra
      rw [hat]
      rfl
  · cases h
    intro r hr
    rw [hdn] at hr
    exact absurd hr (List.not_mem_nil r)

/-- On an input without unescaped RDN/attribute delimiters the scan never
touches the `dn`/`rdn` accumulators, so a successful parse only contains
attribute types checked non-empty by `finalizeDN` (helper for the
delimiter-free invariant). -/
theorem run_no_delim_types (d : List Nat → Option String) :
    ∀ (fuel : Nat) (st : ScanState) (cs : List Char),
      (∀ c ∈ cs, c ≠ ',' ∧ c ≠ '+') → st.dn = [] → st.rdn = [] →
      ∀ dnv : DN, run d fuel st cs = ParseResult.ok dnv →
      ∀ r ∈ dnv.RDNs, ∀ a ∈ r.Attributes, a.type ≠ "" := by
  intro fuel
  induction fuel with
  | zero =>
    intro st cs hcs hdn hrdn dnv hrun
    cases cs with
    | nil => exact finalize_no_delim st hdn hrdn dnv hrun
    | cons c t => exact absurd hrun (by simp [run])
  | succ fuel ih =>
    intro st cs hcs hdn hrdn dnv hrun
    cases cs with
    | nil => exact finalize_no_delim st hdn hrdn dnv hrun
    | cons c t =>
      simp only [run] at hrun
      split at hrun
      · -- escaping branch
        split at hrun
        · -- special character appended
          exact ih _ t (fun x hx => hcs x (List.mem_cons_of_mem c hx))
            (by simpa using hdn) (by simpa using hrdn) dnv hrun
        · -- non-special character: hex pair or error
          split at hrun
          · exact absurd hrun (by simp)
          · rename_i c2 rest2
            split at hrun
            · exact ih _ rest2
                (fun x hx => hcs x (List.mem_cons_of_mem c (List.mem_cons_of_mem c2 hx)))
                (by simpa using hdn) (by simpa using hrdn) dnv hrun
            · exact absurd hrun (by simp)
      · -- not escaping
        split at hrun
        · -- backslash sets the escaping flag
          exact ih _ t (fun x hx => hcs x (List.mem_cons_of_mem c hx))
            (by simpa using hdn) (by simpa using hrdn) dnv hrun
        · split at hrun
          · -- equals sign
            split at hrun
            · -- BER fast path
              rename_i hexPart
              split at hrun
              · exact absurd hrun (by simp)
              · split at hrun
                · exact absurd hrun (by simp)
                · refine ih _ _ (fun x hx => ?_) (by simpa using hdn)
                    (by simpa using hrdn) dnv hrun
                  have hx2 : x ∈ hexPart := List.mem_of_mem_drop hx
                  exact hcs x (List.mem_cons_of_mem c (List.mem_cons_of_mem _ hx2))
            · -- ordinary equals
              exact ih _ t (fun x hx => hcs x (List.mem_cons_of_mem c hx))
                (by simpa using hdn) (by simpa using hrdn) dnv hrun
          · split at hrun
            · -- comma or plus: excluded by the hypothesis
              rename_i hdelim
              rcases hcs c (List.mem_cons_self c t) with ⟨h1, h2⟩
              rcases hdelim with h | h
              · exact absurd h h1
              · exact absurd h h2
            · split at hrun
              · -- unescaped leading space skipped
                exact ih _ t (fun x hx => hcs x (List.mem_cons_of_mem c hx))
                  hdn hrdn dnv hrun
              · split at hrun
                · -- space appended
                  exact ih _ t (fun x hx => hcs x (List.mem_cons_of_mem c hx))
                    (by simpa using hdn) (by simpa using hrdn) dnv hrun
                · -- ordinary character appended
                  exact ih _ t (fun x hx => hcs x (List.mem_cons_of_mem c hx))
                    (by simpa using hdn) (by simpa using hrdn) dnv hrun

/-- C3 (amended): on every input free of `,` and `+` characters, a
successful `ParseDN` returns only attributes with a non-empty type
(the end-of-input finalization is the only attribute emitter on such
inputs, and it rejects an empty type).  The unrestricted claim is false,
see the counterexample on the input consisting of one comma. -/
theorem nonemptyType_no_delims (d : List Nat → Option String) (s : String)
    (h : ∀ c ∈ s.data, c ≠ ',' ∧ c ≠ '+') (dnv : DN)
    (hok : ParseDN d s = ParseResult.ok dnv) :
    ∀ r ∈ dnv.RDNs, ∀ a ∈ r.Attributes, a.type ≠ "" :=
  run_no_delim_types d (s.data.length + 1) initState s.data h rfl rfl dnv hok

/-- Witness for C3 on the delimiter-free input `CN=x`. -/
theorem nonemptyType_no_delims_witness :
    ({ type := "CN", value := "x" } : AttributeTypeAndValue).type ≠ "" :=
  nonemptyType_no_delims rejectAllBER "CN=x" (by decide)
    (DN.mk [RelativeDN.mk [{ type := "CN", value := "x" }]]) (by decide)
    (RelativeDN.mk [{ type := "CN", value := "x" }]) (by simp)
    { type := "CN", value := "x" } (by simp)

/-- Counterexample to C3 as stated: `ParseDN ","` succeeds, and the
returned DN contains an AttributeTypeAndValue whose type is the empty
string (the `,`/`+` branch of the scan pushes the pending attribute
without ever checking that a type was assigned). -/
theorem emptyType_accepted :
    ParseDN rejectAllBER "," =
      ParseResult.ok (DN.mk [RelativeDN.mk [{ type := "", value := "" }]]) := by
  decide

/-- C1 (amended): an escape whose character is not special is an error
when it lacks its hex pair: if it is the last character of the input the
scan fails with the corrupted-escape error, and if the two characters at
hand are not two hex digits it fails with the invalid-hex error; the two
spec inputs behave accordingly.  A bare `\` as the very last input
character, however, is not an error (see the counterexample): the loop
simply ends with the `escaping` flag set and finalizes normally. -/
theorem malformedEscape_errors :
    (∀ (d : List Nat → Option String) (fuel : Nat) (st : ScanState) (c : Char),
      st.escaping = true → isSpecialChar c = false →
      run d (fuel + 1) st [c] = ParseResult.error ParseErr.corruptedEscape) ∧
    (∀ (d : List Nat → Option String) (fuel : Nat) (st : ScanState) (c c2 : Char)
      (rest : List Char),
      st.escaping = true → isSpecialChar c = false →
      hexVal c = none ∨ hexVal c2 = none →
      run d (fuel + 1) st (c :: c2 :: rest) = ParseResult.error ParseErr.invalidEscapeHex) ∧
    (∀ d, ParseDN d "CN=\\Z" = ParseResult.error ParseErr.corruptedEscape) ∧
    (∀ d, ParseDN d "CN=\\ZZ" = ParseResult.error ParseErr.invalidEscapeHex) := by
  refine ⟨?_, ?_, fun d => rfl, fun d => rfl⟩
  · intro d fuel st c hesc hspec
    simp [run, hesc, hspec]
  · intro d fuel st c c2 rest hesc hspec hhex
    rcases hhex with h | h
    · simp [run, hesc, hspec, h]
    · cases hc : hexVal c with
      | none => simp [run, hesc, hspec, hc]
      | some hi => simp [run, hesc, hspec, hc, h]

/-- Witness for C1: the scanner in escaping state on the concrete inputs
of the spec, and the two full parses. -/
theorem malformedEscape_errors_witness :
    run rejectAllBER 1 { initState with escaping := true } ['Z'] =
      ParseResult.error ParseErr.corruptedEscape ∧
    run rejectAllBER 1 { initState with escaping := true } ['Z', 'Z'] =
      ParseResult.error ParseErr.invalidEscapeHex ∧
    ParseDN rejectAllBER "CN=\\Z" = ParseResult.error ParseErr.corruptedEscape ∧
    ParseDN rejectAllBER "CN=\\ZZ" = ParseResult.error ParseErr.invalidEscapeHex :=
  ⟨malformedEscape_errors.1 rejectAllBER 0 _ 'Z' rfl (by decide),
   malformedEscape_errors.2.1 rejectAllBER 0 _ 'Z' 'Z' [] rfl (by decide)
     (Or.inl (by decide)),
   malformedEscape_errors.2.2.1 rejectAllBER,
   malformedEscape_errors.2.2.2 rejectAllBER⟩

/-- Counterexample to C1 as stated: an input whose final character is a
lone `\` is accepted without any error, both when the rest is empty and
when an attribute is pending, so a truncated escape of this shape is not
a parse error. -/
theorem loneBackslash_accepted :
    ParseDN rejectAllBER "\\" = ParseResult.ok (DN.mk []) ∧
    ParseDN rejectAllBER "CN=x\\" =
      ParseResult.ok (DN.mk [RelativeDN.mk [{ type := "CN", value := "x" }]]) :=
  ⟨by decide, by decide⟩

/-- C2: in the `=#` BER fast path, a hex-decode failure of the scanned
span is an error return, but a rejection by the BER decoder is not: the
Go code calls `ber.DecodePacket`, whose signature has no error, and
dereferences `packet.Data` unconditionally, so a rejected payload (a nil
packet) crashes the process instead of returning the error the spec
requires.  Bytes `[48, 129]` are the decoding of the hex span `3081`, a
truncated BER SEQUENCE header. -/
theorem berFastPath_outcomes :
    (∀ d, ParseDN d "CN=#3Z" = ParseResult.error ParseErr.berHexFail) ∧
    (∀ d : List Nat → Option String, d [48, 129] = none →
      ParseDN d "CN=#3081" = ParseResult.crash) := by
  refine ⟨fun d => rfl, fun d hd => ?_⟩
  calc ParseDN d "CN=#3081"
      = (match d [48, 129] with
         | none => ParseResult.crash
         | some rendered =>
           run d 6 { dn := [], rdn := [], attrType := "CN", buffer := rendered.data, unescapedTrailingSpaces := 0, escaping := false } []) := rfl
    _ = ParseResult.crash := by rw [hd]

/-- Witness for C2 with the all-rejecting decoder instance. -/
theorem berFastPath_outcomes_witness :
    ParseDN rejectAllBER "CN=#3Z" = ParseResult.error ParseErr.berHexFail ∧
    ParseDN rejectAllBER "CN=#3081" = ParseResult.crash :=
  ⟨berFastPath_outcomes.1 rejectAllBER, berFastPath_outcomes.2 rejectAllBER rfl⟩

/-- C4 (amended): `ParseDN "CN"` fails with the incomplete type/value
error; `ParseDN "CN="` succeeds but returns a DN with zero RelativeDNs:
the buffer is empty at end of input, so the pending attribute with type
`CN` (and its empty value) is silently dropped rather than emitted. -/
theorem incompletePair_behavior (d : List Nat → Option String) :
    ParseDN d "CN" = ParseResult.error ParseErr.incompleteTypeValue ∧
    ParseDN d "CN=" = ParseResult.ok (DN.mk []) :=
  ⟨rfl, rfl⟩

/-- Witness for C4 at a concrete decoder. -/
theorem incompletePair_behavior_witness :
    ParseDN rejectAllBER "CN" = ParseResult.error ParseErr.incompleteTypeValue ∧
    ParseDN rejectAllBER "CN=" = ParseResult.ok (DN.mk []) :=
  incompletePair_behavior rejectAllBER

/-- Counterexample to C4 as stated: `ParseDN "CN="` does succeed, but the
resulting DN has an empty RelativeDN list, so it does not contain an
attribute with type `CN` and empty value. -/
theorem cnEquals_empty_dn :
    ParseDN rejectAllBER "CN=" = ParseResult.ok (DN.mk []) ∧ (DN.mk []).RDNs = [] :=
  ⟨by decide, rfl⟩

/-- C10: an unescaped `=` (not followed by `#`) unconditionally
re-finalizes the accumulation buffer as the attribute type, silently
discarding whatever type was assigned before; in particular
`ParseDN "CN=a=b"` succeeds with the single attribute `(a, b)` and the
original type `CN` is lost without error. -/
theorem equalsOverwritesType :
    (∀ (d : List Nat → Option String) (fuel : Nat) (st : ScanState) (rest : List Char),
      st.escaping = false → rest.head? ≠ some '#' →
      run d (fuel + 1) st ('=' :: rest) =
        run d fuel { st with attrType := stringFromBuffer st.buffer st.unescapedTrailingSpaces, buffer := [], unescapedTrailingSpaces := 0 } rest) ∧
    (∀ d, ParseDN d "CN=a=b" =
      ParseResult.ok (DN.mk [RelativeDN.mk [{ type := "a", value := "b" }]])) := by
  constructor
  · intro d fuel st rest hesc hhd
    cases rest with
    | nil => simp [run, hesc]
    | cons c t =>
      by_cases hc : c = '#'
      · subst hc; simp at hhd
      · simp [run, hesc]
        split
        · rename_i heq; simp_all
        · rfl
  · intro d; rfl

/-- Witness for C10: one overwrite step on a concrete state holding the
type `CN` and the buffer `a`, plus the full parse of `CN=a=b`. -/
theorem equalsOverwritesType_witness :
    run rejectAllBER 1 { dn := [], rdn := [], attrType := "CN", buffer := ['a'], unescapedTrailingSpaces := 0, escaping := false } ['=', 'b'] =
      run rejectAllBER 0 { dn := [], rdn := [], attrType := stringFromBuffer ['a'] 0, buffer := [], unescapedTrailingSpaces := 0, escaping := false } ['b'] ∧
    ParseDN rejectAllBER "CN=a=b" =
      ParseResult.ok (DN.mk [RelativeDN.mk [{ type := "a", value := "b" }]]) :=
  ⟨equalsOverwritesType.1 rejectAllBER 0
      { dn := [], rdn := [], attrType := "CN", buffer := ['a'], unescapedTrailingSpaces := 0, escaping := false }
      ['b'] rfl (by decide),
   equalsOverwritesType.2 rejectAllBER⟩

end LdapDN
